import Mathlib

/-!
Shallow embedding of the NetHttp server (`app/server.go` plus the handler and
route-registration files) in Lean 4.

Bytes are modelled as `List Nat` (each element a byte value); Go strings used
for textual processing are modelled as Lean `String`s, converted to bytes with
`strBytes` (the concrete data handled here is ASCII, where the two encodings
agree byte for byte). Go's `map[string]string` is modelled as an association
list written in insertion order with a last-write-wins lookup. The gzip
compressor from Go's standard library is external to the repository and is
modelled as an abstract parameter `gz : List Nat → Option (List Nat)`
(`none` standing for a compressor error).
-/

namespace NetHttp

/-! ### Go string primitives

The Go standard-library string functions the server uses (`strings.Split`,
`strings.SplitN`, `strings.TrimSpace`, `strings.HasPrefix`) are modelled here
by structural recursion over the character list of a `String`, so that every
definition evaluates by kernel reduction. -/

/-- `unicode.IsSpace` on the ASCII range (the white space Go's `TrimSpace`
and `fmt`'s `%d` verb skip): space, tab, newline, vertical tab, form feed,
carriage return. -/
def goIsSpace (c : Char) : Bool :=
  c == ' ' || c == '\t' || c == '\n' || c == '\x0b' || c == '\x0c' || c == '\r'

/-- `strings.TrimSpace`: drop white space from both ends. -/
def goTrimSpace (s : String) : String :=
  String.mk (((s.data.dropWhile goIsSpace).reverse.dropWhile goIsSpace).reverse)

/-- `strings.HasPrefix`. -/
def goStartsWith (s pre : String) : Bool :=
  pre.data.isPrefixOf s.data

/-- Split a character list at the first occurrence of `sep`: `some (before,
after)` with the separator removed, `none` when `sep` does not occur
(`sep` is non-empty at every use site). -/
def breakOn (sep : List Char) : List Char → Option (List Char × List Char)
  | [] => none
  | c :: cs =>
      if sep.isPrefixOf (c :: cs) then some ([], (c :: cs).drop sep.length)
      else (breakOn sep cs).map (fun q => (c :: q.1, q.2))

/-- Fuel-indexed core of `goSplit`. A found separator always consumes at
least one character, so fuel equal to the list length only runs out on `[]`,
where the `[l]` answers of the two base branches agree. -/
def splitListAux (sep : List Char) : Nat → List Char → List (List Char)
  | 0, l => [l]
  | fuel + 1, l =>
      match breakOn sep l with
      | none => [l]
      | some (before, after) => before :: splitListAux sep fuel after

/-- `strings.Split(s, sep)` for non-empty `sep`: split around every
occurrence of the separator, keeping empty fields. -/
def goSplit (s sep : String) : List String :=
  (splitListAux sep.data s.data.length s.data).map String.mk

/-- `strings.SplitN(s, sep, 2)`, as the two pieces around the first
occurrence of `sep` (`none` when `sep` does not occur, where Go returns the
one-element slice `[s]`). -/
def goSplitFirst (s sep : String) : Option (String × String) :=
  (breakOn sep.data s.data).map (fun q => (String.mk q.1, String.mk q.2))

/-- `s[1:]` on a string known to start with the ASCII byte `:`. -/
def strTail (s : String) : String := String.mk (s.data.drop 1)

/-- ASCII/byte view of a Go string (the strings handled here are ASCII). -/
def strBytes (s : String) : List Nat := s.data.map Char.toNat

/-- Byte list back to a string (used for lines read off the wire). -/
def bytesToStr (bs : List Nat) : String := String.mk (bs.map Char.ofNat)

/-- Go map lookup `m[k]` (missing key yields the zero value `""`),
with last-write-wins on duplicate keys. -/
def mapGet (m : List (String × String)) (k : String) : String :=
  match m.reverse.find? (fun p => p.1 == k) with
  | some p => p.2
  | none => ""

/-- Go map membership test `_, ok := m[k]`. -/
def mapHas (m : List (String × String)) (k : String) : Bool :=
  m.any (fun p => p.1 == k)

/-- Go map assignment `m[k] = v`, modelled by appending (lookup is
last-write-wins). -/
def mapSet (m : List (String × String)) (k v : String) : List (String × String) :=
  m ++ [(k, v)]

/-! ### Response serializer (`sendResponse`, server.go:212-242) -/

/-- The wire output of one `sendResponse` call: the header block (written
first) and the body bytes (written second). -/
structure Response where
  headers : String
  body : List Nat
deriving DecidableEq, Repr

/-- `sendResponse` (server.go:212-242). `gz` stands for Go's gzip writer
(write-then-close over an in-memory buffer); `none` models a compressor
error, on which the Go code logs and returns before writing anything. -/
def sendResponse (gz : List Nat → Option (List Nat))
    (status contentType : String) (body : List Nat)
    (contentEncoding : String) (bodyIsCompressed : Bool) : Option Response :=
  let headers := status ++ "\r\n" ++ "Content-Type: " ++ contentType ++ "\r\n"
  if bodyIsCompressed && (contentEncoding == "gzip") then
    let headers := headers ++ "Content-Encoding: " ++ contentEncoding ++ "\r\n"
    match gz body with
    | none => none
    | some compressed =>
        some ⟨headers ++ "Content-Length: " ++ toString compressed.length
                ++ "\r\n" ++ "\r\n", compressed⟩
  else
    some ⟨headers ++ "Content-Length: " ++ toString body.length
            ++ "\r\n" ++ "\r\n", body⟩

/-- The full byte sequence a `sendResponse` call writes to the connection:
headers first, then the body. -/
def respBytes (r : Response) : List Nat := strBytes r.headers ++ r.body

/-! ### Router (`matchRoute`, server.go:101-119) -/

/-- Segment-wise matching loop of `matchRoute` (server.go:109-116): the first
list is the split route pattern, the second the split request path. Returns
the parameter bindings in segment order on success. -/
def matchSegs : List String → List String → Option (List (String × String))
  | [], [] => some []
  | rp :: rps, pp :: pps =>
      if goStartsWith rp ":" then
        (matchSegs rps pps).map (fun ps => (strTail rp, pp) :: ps)
      else if rp == pp then
        matchSegs rps pps
      else
        none
  | _, _ => none

/-- `matchRoute` (server.go:101-119): split pattern and path on `/`; the
length check at server.go:105 is subsumed by `matchSegs` failing on lists of
different lengths. -/
def matchRoute (requestPath route : String) : Option (List (String × String)) :=
  matchSegs (goSplit route "/") (goSplit requestPath "/")

/-- Spec-side matcher, written from the spec's words (§4.2): split both on
`/`; if segment counts differ, no match; a pattern segment beginning with `:`
binds the parameter named by the segment minus the leading `:` to the path
segment at that index; any other segment must be byte-equal. -/
def specMatch (requestPath route : String) : Option (List (String × String)) :=
  let rs := goSplit route "/"
  let ps := goSplit requestPath "/"
  if rs.length = ps.length
      && (rs.zip ps).all (fun q => goStartsWith q.1 ":" || q.1 == q.2) then
    some ((rs.zip ps).filterMap
      (fun q => if goStartsWith q.1 ":" then some (strTail q.1, q.2) else none))
  else
    none

/-! ### The byte stream and `bufio.Reader` model

The TCP connection delivers bytes in chunks; one underlying read returns the
next chunk. `bufio.Reader` keeps already-delivered but unconsumed bytes in an
internal buffer. -/

/-- The reading side of one connection: `buf` is the data already delivered
by the peer but not yet consumed (bufio's internal buffer), `chunks` the
future underlying reads, in order. -/
structure ByteReader where
  buf : List Nat
  chunks : List (List Nat)
deriving DecidableEq, Repr

instance {ε α : Type} [DecidableEq ε] [DecidableEq α] : DecidableEq (Except ε α) := fun x y =>
  match x, y with
  | .ok a, .ok b =>
      if h : a = b then .isTrue (by rw [h])
      else .isFalse (fun hh => h (Except.ok.inj hh))
  | .ok _, .error _ => .isFalse (fun hh => Except.noConfusion hh)
  | .error _, .ok _ => .isFalse (fun hh => Except.noConfusion hh)
  | .error a, .error b =>
      if h : a = b then .isTrue (by rw [h])
      else .isFalse (fun hh => h (Except.error.inj hh))

/-- Split a byte list at its first newline (byte 10), returning the prefix
including the newline and the remainder. -/
def splitAtNewline : List Nat → Option (List Nat × List Nat)
  | [] => none
  | b :: bs =>
      if b == 10 then some ([10], bs)
      else (splitAtNewline bs).map (fun q => (b :: q.1, q.2))

/-- Recursion core of `readLine`, structural on the chunk list. -/
def readLineAux (buf : List Nat) : List (List Nat) → Except Unit (List Nat × ByteReader) :=
  fun chunks =>
    match splitAtNewline buf with
    | some (line, rest) => .ok (line, ⟨rest, chunks⟩)
    | none =>
        match chunks with
        | [] => .error ()
        | c :: cs => readLineAux (buf ++ c) cs

/-- `reader.ReadString('\n')` (bufio): return the buffered bytes up to and
including the first newline, pulling further chunks from the connection as
needed; end of stream before a newline is an I/O error (Go returns the
partial data together with `io.EOF`, and every caller aborts on a non-nil
error). -/
def readLine (r : ByteReader) : Except Unit (List Nat × ByteReader) :=
  readLineAux r.buf r.chunks

/-- One `reader.Read(p)` call with `len(p) = n` (bufio): drain the buffer if
non-empty, otherwise perform a single underlying read and return at most `n`
of its bytes; a read at end of stream is `io.EOF`. A single call may return
fewer than `n` bytes. -/
def ByteReader.read (r : ByteReader) (n : Nat) : Except Unit (List Nat × ByteReader) :=
  if n = 0 then .ok ([], r)
  else if r.buf.isEmpty then
    match r.chunks with
    | [] => .error ()
    | c :: cs => .ok (c.take n, ⟨c.drop n, cs⟩)
  else
    .ok (r.buf.take n, ⟨r.buf.drop n, r.chunks⟩)

/-- Total number of bytes still deliverable on the connection. -/
def ByteReader.totalBytes (r : ByteReader) : Nat :=
  r.buf.length + (r.chunks.map List.length).sum

/-! ### Request parser (server.go:125-208) -/

/-- A parsed request (server.go:47-52). Headers keep insertion order; lookup
is `mapGet` (last-write-wins), mirroring the Go map. -/
structure HTTPRequest where
  method : String
  path : String
  headers : List (String × String)
  body : List Nat
deriving DecidableEq, Repr

/-- The parser's failure modes as they exist in the code: every early return
of `parseRequest` is one of these. -/
inductive ParseError
  | connectionRead
  | malformedRequestLine
  | unsupportedMethod
deriving DecidableEq, Repr

/-- Overall outcome of `parseRequest`: a request, an error return, or a
runtime panic (`make([]byte, n)` with negative `n` in `readBody`). -/
inductive ParseOutcome
  | ok (req : HTTPRequest) (rest : ByteReader)
  | err (e : ParseError)
  | panicked
deriving DecidableEq, Repr

/-- `parseRequestLine` (server.go:155-165): trim the line, split on single
spaces, require at least two tokens, require the method to be GET or POST. -/
def parseRequestLine (requestLine : String) : Except ParseError (String × String) :=
  match goSplit (goTrimSpace requestLine) " " with
  | method :: path :: _ =>
      if method == "GET" || method == "POST" then .ok (method, path)
      else .error .unsupportedMethod
  | _ => .error .malformedRequestLine

/-- Header-line split (server.go:178): `strings.SplitN(line, ": ", 2)`;
`none` models the one-element result (separator absent), which the caller
skips. -/
def splitHeaderLine (line : String) : Option (String × String) :=
  goSplitFirst line ": "

/-- `parseHeaders` (server.go:167-185): read trimmed lines until an empty
line; a line without `": "` is skipped; otherwise `headers[k] = v`. The
`fuel` argument bounds the loop for Lean's termination checker; callers pass
more fuel than there are bytes on the connection, and since every parsed line
consumes at least one byte the bound is never the reason a run stops. -/
def parseHeaders : Nat → ByteReader → List (String × String) →
    Except ParseError (List (String × String) × ByteReader)
  | 0, _, _ => .error .connectionRead
  | fuel + 1, r, acc =>
      match readLine r with
      | .error _ => .error .connectionRead
      | .ok (lineBytes, r') =>
          let line := goTrimSpace (bytesToStr lineBytes)
          if line == "" then .ok (acc, r')
          else
            match splitHeaderLine line with
            | none => parseHeaders fuel r' acc
            | some (k, v) => parseHeaders fuel r' (mapSet acc k v)

/-- `fmt.Sscanf(s, "%d", &length)` scanning into a 64-bit `int`: skip
leading spaces, an optional sign, then at least one digit; `none` when no
integer can be scanned or when `strconv.ParseInt` reports a range error
because the value falls outside the `int64` range — in both failure cases
the scan aborts WITHOUT assigning, so the Go variable keeps its previous
value. Trailing input is ignored. -/
def sscanfInt (s : String) : Option Int :=
  let cs := s.data.dropWhile goIsSpace
  let signDigits : Int × List Char :=
    match cs with
    | '-' :: t => (-1, t)
    | '+' :: t => (1, t)
    | _ => (1, cs)
  let ds := signDigits.2.takeWhile Char.isDigit
  if ds.isEmpty then none
  else
    let v : Int := signDigits.1 * (ds.foldl (fun a c => a * 10 + (c.toNat - 48)) 0 : Nat)
    if v < -9223372036854775808 || 9223372036854775807 < v then none
    else some v

/-- Result of `readBody`: success with the body buffer, an I/O error, or the
runtime panic raised by `make([]byte, length)` when `length` is negative. -/
inductive BodyOutcome
  | ok (body : List Nat) (rest : ByteReader)
  | ioError
  | panicked
deriving DecidableEq, Repr

/-- `readBody` (server.go:196-208): scan the Content-Length value with
`Sscanf`, IGNORING its error (`length` stays 0 on a failed scan); allocate a
zero-filled buffer of that length (panic when negative); issue ONE
`reader.Read` into it; convert the WHOLE buffer to a string, regardless of
how many bytes the read returned. -/
def readBody (r : ByteReader) (contentLength : String) : BodyOutcome :=
  let length : Int := (sscanfInt contentLength).getD 0
  if length < 0 then .panicked
  else
    let n := length.toNat
    match r.read n with
    | .error _ => .ioError
    | .ok (got, r') => .ok (got ++ List.replicate (n - got.length) 0) r'

/-- `parseBody` (server.go:187-194): no `Content-Length` header means an
empty body with no bytes consumed; otherwise `readBody`. -/
def parseBody (r : ByteReader) (headers : List (String × String)) : BodyOutcome :=
  if mapHas headers "Content-Length" then
    readBody r (mapGet headers "Content-Length")
  else
    .ok [] r

/-- `parseRequest` (server.go:125-153): request line, headers, body. -/
def parseRequest (r : ByteReader) : ParseOutcome :=
  match readLine r with
  | .error _ => .err .connectionRead
  | .ok (lineBytes, r1) =>
      match parseRequestLine (bytesToStr lineBytes) with
      | .error e => .err e
      | .ok (method, path) =>
          match parseHeaders (r1.totalBytes + 1) r1 [] with
          | .error e => .err e
          | .ok (headers, r2) =>
              match parseBody r2 headers with
              | .ioError => .err .connectionRead
              | .panicked => .panicked
              | .ok body r3 => .ok ⟨method, path, headers, body⟩ r3

/-! ### Handlers (part_002) and route registration (part_003) -/

/-- `handleEchoMessage` (part_002:20-38): split the request's
`Accept-Encoding` value on commas; if any token, whitespace-trimmed, equals
`"gzip"` exactly, send the echoed message compressed with a
`Content-Encoding: gzip` header, otherwise uncompressed. The Go `for` loop
with `break` is the `List.any` here. -/
def handleEchoMessage (gz : List Nat → Option (List Nat))
    (req : HTTPRequest) (params : List (String × String)) : Option Response :=
  let message := mapGet params "message"
  let acceptEncoding := mapGet req.headers "Accept-Encoding"
  let encodings := goSplit acceptEncoding ","
  let gzipSupported := encodings.any (fun e => goTrimSpace e == "gzip")
  if gzipSupported then
    sendResponse gz "HTTP/1.1 200 OK" "text/plain" (strBytes message) "gzip" true
  else
    sendResponse gz "HTTP/1.1 200 OK" "text/plain" (strBytes message) "" false

/-- The byte-store collaborator behind `/files` (`os.ReadFile`/`os.WriteFile`),
modelled as an association list from full path to contents with
last-write-wins lookup; its operations always succeed in this model, so the
500 branches of `handleFiles` are unreachable here. -/
def storeGet (store : List (String × List Nat)) (p : String) : Option (List Nat) :=
  (store.reverse.find? (fun e => e.1 == p)).map (fun e => e.2)

/-- Byte-store write. -/
def storeSet (store : List (String × List Nat)) (p : String) (v : List Nat) :
    List (String × List Nat) :=
  store ++ [(p, v)]

/-- `handleFiles` (part_002:40-82): GET reads `directoryFlag ++ filename`
(missing file is a 404), POST writes the request body there, reads it back
and answers 201 with it, and ANY other method falls to the `default:` branch
answering 405. Returns the response written (none only if a read-back after
write failed, the model's stand-in for the 500 path) and the updated store. -/
def handleFiles (store : List (String × List Nat)) (directoryFlag : String)
    (req : HTTPRequest) (params : List (String × String)) :
    Option Response × List (String × List Nat) :=
  let filename := mapGet params "filename"
  let filePath := directoryFlag ++ filename
  match req.method with
  | "GET" =>
      match storeGet store filePath with
      | none =>
          (sendResponse (fun _ => none) "HTTP/1.1 404 Not Found" "text/plain" [] "" false,
           store)
      | some content =>
          (sendResponse (fun _ => none) "HTTP/1.1 200 OK" "application/octet-stream"
             content "" false, store)
  | "POST" =>
      let store' := storeSet store filePath req.body
      match storeGet store' filePath with
      | none =>
          (sendResponse (fun _ => none) "HTTP/1.1 500 Internal Server Error"
             "text/plain" [] "" false, store')
      | some written =>
          (sendResponse (fun _ => none) "HTTP/1.1 201 Created"
             "application/octet-stream" written "" false, store')
  | _ =>
      (sendResponse (fun _ => none) "HTTP/1.1 405 Method Not Allowed"
         "text/plain" [] "" false, store)

/-- The four patterns registered by `setupRoutes` (part_003:20-25). -/
def routePatterns : List String :=
  ["/", "/echo/:message", "/user-agent", "/files/:filename"]

/-! ### Connection handler (server.go:81-99) -/

/-- A route handler, abstracted to the bytes it writes to the connection. -/
def Handler := HTTPRequest → List (String × String) → List Nat

/-- The `for route, handler := range s.routes` loop (server.go:90-96) for one
iteration order: first route whose pattern matches wins. -/
def firstMatch : List (String × Handler) → String →
    Option (Handler × List (String × String))
  | [], _ => none
  | (pat, h) :: rest, path =>
      match matchRoute path pat with
      | some ps => some (h, ps)
      | none => firstMatch rest path

/-- The bytes of the 404 fallback response (server.go:98). -/
def notFoundBytes : List Nat :=
  match sendResponse (fun _ => none) "HTTP/1.1 404 Not Found" "text/plain" [] "" false with
  | some resp => respBytes resp
  | none => []

/-- `handleConnection` (server.go:81-99), as the bytes written back on the
connection before it closes: a parse error returns without writing (and a
parser panic writes nothing either); otherwise the first matching route's
handler runs; with no match the 404 response is written. -/
def handleConnection (routes : List (String × Handler)) (r : ByteReader) : List Nat :=
  match parseRequest r with
  | .err _ => []
  | .panicked => []
  | .ok req _ =>
      match firstMatch routes req.path with
      | some (h, params) => h req params
      | none => notFoundBytes

/-! ## Theorems -/

/-- Closed form of the matching loop: `matchSegs` succeeds exactly when the
lists have equal length and every pattern segment either starts with `:` or
equals the path segment at its index, and then returns one binding per
parameter segment. -/
theorem matchSegs_eq (rs : List String) : ∀ ps : List String,
    matchSegs rs ps =
      if rs.length = ps.length
          && (rs.zip ps).all (fun q => goStartsWith q.1 ":" || q.1 == q.2) then
        some ((rs.zip ps).filterMap
          (fun q => if goStartsWith q.1 ":" then some (strTail q.1, q.2) else none))
      else none := by
  induction rs with
  | nil =>
      intro ps
      cases ps with
      | nil => simp [matchSegs]
      | cons p ps => simp [matchSegs]
  | cons r rs ih =>
      intro ps
      cases ps with
      | nil => simp [matchSegs]
      | cons p ps =>
          simp only [matchSegs, ih ps, List.zip_cons_cons, List.all_cons,
            List.length_cons, List.filterMap_cons, add_left_inj]
          by_cases hl : rs.length = ps.length
          · by_cases hall :
                ((rs.zip ps).all (fun q => goStartsWith q.1 ":" || q.1 == q.2)) = true
            · by_cases hstart : goStartsWith r ":" = true
              · simp [hl, hall, hstart]
              · by_cases heq : (r == p) = true
                · simp [hl, hall, hstart, heq]
                · simp [hl, hall, hstart, heq]
            · by_cases hstart : goStartsWith r ":" = true
              · simp [hl, hall, hstart]
              · by_cases heq : (r == p) = true
                · simp [hl, hall, hstart, heq]
                · simp [hl, hall, hstart, heq]
          · by_cases hstart : goStartsWith r ":" = true
            · simp [hl, hstart]
            · by_cases heq : (r == p) = true
              · simp [hl, hstart, heq]
              · simp [hl, hstart, heq]

/-- C6: the router matches exactly as specified: both strings are split on
`/`; differing segment counts never match; a pattern segment beginning with
`:` binds the parameter named by the segment minus the leading `:` to the
path segment at that index; any other pattern segment must be byte-equal to
the path segment or the whole pattern fails (`specMatch` is that
specification verbatim). -/
theorem matchRoute_eq_specMatch (requestPath route : String) :
    matchRoute requestPath route = specMatch requestPath route := by
  simp only [matchRoute, specMatch]
  exact matchSegs_eq _ _

/-- A successful match forces equal segment counts. -/
theorem matchSegs_length (rs ps : List String)
    (h : (matchSegs rs ps).isSome = true) : rs.length = ps.length := by
  rw [matchSegs_eq] at h
  split at h
  · next hc =>
      rw [Bool.and_eq_true] at hc
      exact of_decide_eq_true hc.1
  · simp at h

/-- A successful match forces every zipped segment pair to satisfy the
parameter-or-equal condition. -/
theorem matchSegs_all (rs ps : List String)
    (h : (matchSegs rs ps).isSome = true) :
    (rs.zip ps).all (fun q => goStartsWith q.1 ":" || q.1 == q.2) = true := by
  rw [matchSegs_eq] at h
  split at h
  · next hc => exact (Bool.and_eq_true .. |>.mp hc).2
  · simp at h

/-- At an index whose pattern segment is a literal (no leading `:`), a
successful match forces the path segment to equal it. -/
theorem matchSegs_lit (rs ps : List String)
    (h : (matchSegs rs ps).isSome = true) (i : Nat) (hi : i < rs.length)
    (hlit : goStartsWith (rs.getD i "") ":" = false) :
    ps.getD i "" = rs.getD i "" := by
  have hlen := matchSegs_length rs ps h
  have hall := matchSegs_all rs ps h
  have hzi : i < (rs.zip ps).length := by
    rw [List.length_zip]
    omega
  have hmem : (rs.zip ps).get ⟨i, hzi⟩ ∈ rs.zip ps := List.get_mem _ _ hzi
  have hq := (List.all_eq_true.mp hall) _ hmem
  have hz : (rs.zip ps).get ⟨i, hzi⟩ =
      (rs.getD i "", ps.getD i "") := by
    have h1 : i < ps.length := by omega
    rw [List.get_eq_getElem, List.getElem_zip]
    rw [List.getD_eq_getElem _ _ hi, List.getD_eq_getElem _ _ h1]
  rw [hz] at hq
  simp only [hlit, Bool.false_or, beq_iff_eq] at hq
  exact hq.symm

/-- C9: over the four registered route patterns (`/`, `/echo/:message`,
`/user-agent`, `/files/:filename`), any request path is matched by at most
one pattern, so the handler chosen by the unordered route-table iteration in
`handleConnection` does not depend on the iteration order. -/
theorem routePatterns_at_most_one_match (p : String) :
    (routePatterns.filter (fun pat => (matchRoute p pat).isSome)).length ≤ 1 := by
  have e1 : goSplit "/" "/" = ["", ""] := by decide
  have e2 : goSplit "/echo/:message" "/" = ["", "echo", ":message"] := by decide
  have e3 : goSplit "/user-agent" "/" = ["", "user-agent"] := by decide
  have e4 : goSplit "/files/:filename" "/" = ["", "files", ":filename"] := by decide
  have n12 : ¬((matchRoute p "/").isSome = true
      ∧ (matchRoute p "/echo/:message").isSome = true) := by
    rintro ⟨a, b⟩
    rw [matchRoute, e1] at a
    rw [matchRoute, e2] at b
    have la := matchSegs_length _ _ a
    have lb := matchSegs_length _ _ b
    simp at la lb
    omega
  have n13 : ¬((matchRoute p "/").isSome = true
      ∧ (matchRoute p "/user-agent").isSome = true) := by
    rintro ⟨a, b⟩
    rw [matchRoute, e1] at a
    rw [matchRoute, e3] at b
    have la := matchSegs_lit _ _ a 1 (by decide) (by decide)
    have lb := matchSegs_lit _ _ b 1 (by decide) (by decide)
    rw [la] at lb
    exact absurd lb (by decide)
  have n14 : ¬((matchRoute p "/").isSome = true
      ∧ (matchRoute p "/files/:filename").isSome = true) := by
    rintro ⟨a, b⟩
    rw [matchRoute, e1] at a
    rw [matchRoute, e4] at b
    have la := matchSegs_length _ _ a
    have lb := matchSegs_length _ _ b
    simp at la lb
    omega
  have n23 : ¬((matchRoute p "/echo/:message").isSome = true
      ∧ (matchRoute p "/user-agent").isSome = true) := by
    rintro ⟨a, b⟩
    rw [matchRoute, e2] at a
    rw [matchRoute, e3] at b
    have la := matchSegs_length _ _ a
    have lb := matchSegs_length _ _ b
    simp at la lb
    omega
  have n24 : ¬((matchRoute p "/echo/:message").isSome = true
      ∧ (matchRoute p "/files/:filename").isSome = true) := by
    rintro ⟨a, b⟩
    rw [matchRoute, e2] at a
    rw [matchRoute, e4] at b
    have la := matchSegs_lit _ _ a 1 (by decide) (by decide)
    have lb := matchSegs_lit _ _ b 1 (by decide) (by decide)
    rw [la] at lb
    exact absurd lb (by decide)
  have n34 : ¬((matchRoute p "/user-agent").isSome = true
      ∧ (matchRoute p "/files/:filename").isSome = true) := by
    rintro ⟨a, b⟩
    rw [matchRoute, e3] at a
    rw [matchRoute, e4] at b
    have la := matchSegs_length _ _ a
    have lb := matchSegs_length _ _ b
    simp at la lb
    omega
  by_cases h1 : (matchRoute p "/").isSome = true <;>
  by_cases h2 : (matchRoute p "/echo/:message").isSome = true <;>
  by_cases h3 : (matchRoute p "/user-agent").isSome = true <;>
  by_cases h4 : (matchRoute p "/files/:filename").isSome = true <;>
    first
      | exact (n12 ⟨h1, h2⟩).elim
      | exact (n13 ⟨h1, h3⟩).elim
      | exact (n14 ⟨h1, h4⟩).elim
      | exact (n23 ⟨h2, h3⟩).elim
      | exact (n24 ⟨h2, h4⟩).elim
      | exact (n34 ⟨h3, h4⟩).elim
      | simp [routePatterns, List.filter, h1, h2, h3, h4]

/-- C1: whenever `sendResponse` emits a response, the `Content-Length`
header line carries exactly the number of body bytes actually written
(`r.body.length`), and when compression is applied the written body is the
gzip output itself — so the length is the compressed length, never the
length of the original uncompressed body. -/
theorem sendResponse_contentLength (gz : List Nat → Option (List Nat))
    (status contentType : String) (body : List Nat) (contentEncoding : String)
    (bodyIsCompressed : Bool) (r : Response)
    (h : sendResponse gz status contentType body contentEncoding bodyIsCompressed = some r) :
    (∃ pre, r.headers
        = pre ++ "Content-Length: " ++ toString r.body.length ++ "\r\n" ++ "\r\n")
    ∧ (bodyIsCompressed = true → contentEncoding = "gzip" →
        ∃ c, gz body = some c ∧ r.body = c) := by
  by_cases hc : bodyIsCompressed = true ∧ contentEncoding = "gzip"
  · obtain ⟨hb, he⟩ := hc
    subst hb he
    simp only [sendResponse, Bool.true_and, beq_self_eq_true, if_true] at h
    cases hg : gz body with
    | none => rw [hg] at h; exact absurd h (by simp)
    | some c =>
        rw [hg] at h
        injection h with h
        subst h
        exact ⟨⟨_, rfl⟩, fun _ _ => ⟨c, rfl, rfl⟩⟩
  · have hcond : (bodyIsCompressed && (contentEncoding == "gzip")) = false := by
      cases bodyIsCompressed with
      | false => rfl
      | true =>
          have : ¬contentEncoding = "gzip" := fun hh => hc ⟨rfl, hh⟩
          simp [this]
    simp only [sendResponse, hcond, Bool.false_eq_true, if_false] at h
    injection h with h
    subst h
    refine ⟨⟨_, rfl⟩, fun hb he => absurd ⟨hb, he⟩ hc⟩

/-- C1 witness: a concrete compressed call; the body written is the
compressor's two-byte output and the Content-Length line says 2. -/
theorem sendResponse_contentLength_witness :
    (∃ pre, ("HTTP/1.1 200 OK\r\nContent-Type: text/plain\r\nContent-Encoding: gzip\r\nContent-Length: 2\r\n\r\n" : String)
        = pre ++ "Content-Length: " ++ toString ([97, 97] : List Nat).length ++ "\r\n" ++ "\r\n")
    ∧ (true = true → "gzip" = "gzip" →
        ∃ c, some ([97, 97] : List Nat) = some c ∧ ([97, 97] : List Nat) = c) :=
  sendResponse_contentLength (fun b => some (b ++ b)) "HTTP/1.1 200 OK" "text/plain"
    [97] "gzip" true
    ⟨"HTTP/1.1 200 OK\r\nContent-Type: text/plain\r\nContent-Encoding: gzip\r\nContent-Length: 2\r\n\r\n", [97, 97]⟩
    (by decide)

/-- C10: called with `bodyIsCompressed = true` but a `contentEncoding` other
than `"gzip"`, the serializer takes the uncompressed branch: the emitted
header block is exactly the status line, Content-Type and a Content-Length
equal to the raw body length — no Content-Encoding line — and the body is
sent uncompressed (the compressor is never consulted). -/
theorem sendResponse_mismatched_encoding (gz : List Nat → Option (List Nat))
    (status contentType : String) (body : List Nat) (contentEncoding : String)
    (h : contentEncoding ≠ "gzip") :
    sendResponse gz status contentType body contentEncoding true =
      some ⟨status ++ "\r\n" ++ "Content-Type: " ++ contentType ++ "\r\n"
              ++ "Content-Length: " ++ toString body.length ++ "\r\n" ++ "\r\n",
            body⟩ := by
  have hb : (contentEncoding == "gzip") = false := by simp [h]
  simp [sendResponse, hb]

/-- C10 witness: `bodyIsCompressed = true` with encoding `"deflate"` and a
compressor that would fail if consulted still yields the uncompressed
response with no Content-Encoding header and Content-Length 1. -/
theorem sendResponse_mismatched_encoding_witness :
    sendResponse (fun _ => none) "HTTP/1.1 200 OK" "text/plain" [104] "deflate" true =
      some ⟨"HTTP/1.1 200 OK\r\nContent-Type: text/plain\r\nContent-Length: 1\r\n\r\n", [104]⟩ :=
  sendResponse_mismatched_encoding (fun _ => none) "HTTP/1.1 200 OK" "text/plain"
    [104] "deflate" (by decide)

/-- C5: the echo handler's response is gzip-compressed with a
`Content-Encoding: gzip` header exactly when the request's `Accept-Encoding`
value, split on commas with each token whitespace-trimmed, contains a token
equal to the case-sensitive string `"gzip"`; otherwise the response carries
the message uncompressed and its header block has no Content-Encoding
line. -/
theorem handleEchoMessage_gzip_negotiation (gz : List Nat → Option (List Nat))
    (req : HTTPRequest) (params : List (String × String)) :
    ((∃ t ∈ goSplit (mapGet req.headers "Accept-Encoding") ",", goTrimSpace t = "gzip") →
        ∀ c, gz (strBytes (mapGet params "message")) = some c →
          handleEchoMessage gz req params =
            some ⟨"HTTP/1.1 200 OK" ++ "\r\n" ++ "Content-Type: " ++ "text/plain" ++ "\r\n"
                    ++ "Content-Encoding: " ++ "gzip" ++ "\r\n"
                    ++ "Content-Length: " ++ toString c.length ++ "\r\n" ++ "\r\n", c⟩)
    ∧ (¬(∃ t ∈ goSplit (mapGet req.headers "Accept-Encoding") ",", goTrimSpace t = "gzip") →
        handleEchoMessage gz req params =
          some ⟨"HTTP/1.1 200 OK" ++ "\r\n" ++ "Content-Type: " ++ "text/plain" ++ "\r\n"
                  ++ "Content-Length: "
                  ++ toString (strBytes (mapGet params "message")).length ++ "\r\n" ++ "\r\n",
                strBytes (mapGet params "message")⟩) := by
  have hany : ((goSplit (mapGet req.headers "Accept-Encoding") ",").any
        (fun e => goTrimSpace e == "gzip") = true)
      ↔ (∃ t ∈ goSplit (mapGet req.headers "Accept-Encoding") ",", goTrimSpace t = "gzip") := by
    simp [List.any_eq_true]
  constructor
  · intro hex c hc
    simp only [handleEchoMessage, hany.mpr hex, if_true, sendResponse,
      Bool.true_and, beq_self_eq_true, hc]
  · intro hnex
    have hfalse : ((goSplit (mapGet req.headers "Accept-Encoding") ",").any
        (fun e => goTrimSpace e == "gzip")) = false := by
      rw [← Bool.not_eq_true, hany]
      exact hnex
    simp only [handleEchoMessage, hfalse, Bool.false_eq_true, if_false, sendResponse,
      Bool.false_and, Bool.and_self]

/-- C5 witness: with `Accept-Encoding: deflate, gzip` the echoed message
`hi` is sent through the compressor (here prefixing byte 0) with a
Content-Encoding header; the token ` gzip` trims to `gzip`. -/
theorem handleEchoMessage_gzip_negotiation_witness :
    (" gzip" ∈ goSplit "deflate, gzip" "," ∧ goTrimSpace " gzip" = "gzip")
    ∧ handleEchoMessage (fun b => some (0 :: b))
        ⟨"GET", "/echo/hi", [("Accept-Encoding", "deflate, gzip")], []⟩
        [("message", "hi")] =
      some ⟨"HTTP/1.1 200 OK\r\nContent-Type: text/plain\r\nContent-Encoding: gzip\r\nContent-Length: 3\r\n\r\n",
            [0, 104, 105]⟩ :=
  ⟨⟨by decide, by decide⟩,
   (handleEchoMessage_gzip_negotiation (fun b => some (0 :: b))
      ⟨"GET", "/echo/hi", [("Accept-Encoding", "deflate, gzip")], []⟩
      [("message", "hi")]).1 ⟨" gzip", by decide, by decide⟩ [0, 104, 105] (by decide)⟩

/-- C2 counterexample: a request whose `Content-Length` value is the
non-numeric string `abc` does NOT fail — the parser returns a complete
`HTTPRequest` (with an empty body), refuting the claim that a non-numeric
Content-Length yields an `InvalidContentLength` error and no Request. -/
theorem parseRequest_nonNumeric_contentLength_ok :
    parseRequest ⟨[], [strBytes "POST /files/a HTTP/1.1\r\nContent-Length: abc\r\n\r\n"]⟩
      = .ok ⟨"POST", "/files/a", [("Content-Length", "abc")], []⟩ ⟨[], []⟩ := by
  decide

/-- C2 (amended): `readBody` ignores the scan error of
`fmt.Sscanf(contentLength, "%d", &length)`: a value on which the scan fails —
non-numeric, or outside the 64-bit `int` range so that `ParseInt` reports a
range error without assigning — leaves `length = 0`, so the parser succeeds
with an empty body and consumes nothing; a value that scans successfully to
a negative integer reaches `make([]byte, length)` and panics. No
`InvalidContentLength` error exists in the code. -/
theorem readBody_ignores_scan_failure (r : ByteReader) (cl : String) :
    (sscanfInt cl = none → readBody r cl = .ok [] r)
    ∧ (∀ z : Int, sscanfInt cl = some z → z < 0 → readBody r cl = .panicked) := by
  constructor
  · intro h
    simp [readBody, h, ByteReader.read]
  · intro z h hz
    simp [readBody, h, hz]

/-- C2 witness: the value `abc` scans to nothing and the body comes back
empty with the reader untouched; so does `-99999999999999999999`, which is
below the `int64` minimum and therefore a scan-time range error (no panic);
the in-range value `-5` panics. -/
theorem readBody_ignores_scan_failure_witness :
    readBody ⟨[], []⟩ "abc" = .ok [] ⟨[], []⟩
    ∧ readBody ⟨[], []⟩ "-99999999999999999999" = .ok [] ⟨[], []⟩
    ∧ readBody ⟨[], []⟩ "-5" = .panicked :=
  ⟨(readBody_ignores_scan_failure ⟨[], []⟩ "abc").1 (by decide),
   (readBody_ignores_scan_failure ⟨[], []⟩ "-99999999999999999999").1 (by decide),
   (readBody_ignores_scan_failure ⟨[], []⟩ "-5").2 (-5) (by decide) (by decide)⟩

/-- C3 counterexample: the request line `GET  / HTTP/1.1` (two spaces after
the method) splits into `["GET", "", "/", "HTTP/1.1"]`, so `parts[1]` is the
empty string and the parser returns a complete Request whose path is empty —
refuting the claim that a Request always has a non-empty path. -/
theorem parseRequest_empty_path :
    parseRequest ⟨[], [strBytes "GET  / HTTP/1.1\r\n\r\n"]⟩
      = .ok ⟨"GET", "", [], []⟩ ⟨[], []⟩ := by
  decide

/-- Helper: a successful `parseRequestLine` can only return `GET` or `POST`
as the method. -/
theorem parseRequestLine_method (line m p : String)
    (h : parseRequestLine line = .ok (m, p)) : m = "GET" ∨ m = "POST" := by
  unfold parseRequestLine at h
  rcases hs : goSplit (goTrimSpace line) " " with _ | ⟨a, _ | ⟨b, t⟩⟩ <;> rw [hs] at h
  · exact absurd h (by simp)
  · exact absurd h (by simp)
  · by_cases hm : (a == "GET" || a == "POST") = true
    · simp only [hm, if_true, Except.ok.injEq, Prod.mk.injEq] at h
      obtain ⟨ha, hb⟩ := h
      rcases Bool.or_eq_true _ _ |>.mp hm with h1 | h1
      · left
        rw [← ha]
        exact eq_of_beq h1
      · right
        rw [← ha]
        exact eq_of_beq h1
    · simp [hm] at h

/-- C3 (amended): every Request the parser produces has a non-empty method —
the method is always exactly `GET` or `POST` — but the path is NOT
guaranteed non-empty (see the counterexample): only the method half of the
invariant holds. -/
theorem parseRequest_method_nonempty (r rest : ByteReader) (req : HTTPRequest)
    (h : parseRequest r = .ok req rest) :
    req.method ≠ "" ∧ (req.method = "GET" ∨ req.method = "POST") := by
  unfold parseRequest at h
  cases hl : readLine r with
  | error e => simp [hl] at h
  | ok v =>
      obtain ⟨lineBytes, r1⟩ := v
      cases hp : parseRequestLine (bytesToStr lineBytes) with
      | error e => simp [hl, hp] at h
      | ok mp =>
          obtain ⟨method, path⟩ := mp
          cases hh : parseHeaders (r1.totalBytes + 1) r1 [] with
          | error e => simp [hl, hp, hh] at h
          | ok hr =>
              obtain ⟨headers, r2⟩ := hr
              cases hb : parseBody r2 headers with
              | ioError => simp [hl, hp, hh, hb] at h
              | panicked => simp [hl, hp, hh, hb] at h
              | ok body r3 =>
                  simp only [hl, hp, hh, hb, ParseOutcome.ok.injEq] at h
                  obtain ⟨h1, h2⟩ := h
                  have hm : req.method = method := by rw [← h1]
                  rcases parseRequestLine_method _ _ _ hp with hg | hg <;>
                    rw [hm, hg]
                  · exact ⟨by decide, Or.inl rfl⟩
                  · exact ⟨by decide, Or.inr rfl⟩

/-- C3 witness: a well-formed `GET /` request yields method `GET`, which is
non-empty and one of the two supported methods. -/
theorem parseRequest_method_nonempty_witness :
    ("GET" : String) ≠ "" ∧ (("GET" : String) = "GET" ∨ ("GET" : String) = "POST") :=
  parseRequest_method_nonempty ⟨[], [strBytes "GET / HTTP/1.1\r\n\r\n"]⟩ ⟨[], []⟩
    ⟨"GET", "/", [], []⟩ (by decide)

/-- C4: evaluating the code on `DELETE /files/x.txt`: `parseRequestLine`
rejects every method other than GET/POST, so the connection handler returns
before routing and writes nothing — no 405 is ever sent for any route table —
even though the `default:` branch of `handleFiles` would answer 405 if a
non-GET/POST request could ever reach it (it cannot). -/
theorem delete_files_no_405 :
    parseRequest ⟨[], [strBytes "DELETE /files/x.txt HTTP/1.1\r\n\r\n"]⟩
      = .err .unsupportedMethod
    ∧ (∀ routes : List (String × Handler),
        handleConnection routes ⟨[], [strBytes "DELETE /files/x.txt HTTP/1.1\r\n\r\n"]⟩ = [])
    ∧ (handleFiles [] "/tmp/" ⟨"DELETE", "/files/x.txt", [], []⟩ [("filename", "x.txt")]).1
      = some ⟨"HTTP/1.1 405 Method Not Allowed\r\nContent-Type: text/plain\r\nContent-Length: 0\r\n\r\n", []⟩ := by
  have hp : parseRequest ⟨[], [strBytes "DELETE /files/x.txt HTTP/1.1\r\n\r\n"]⟩
      = .err .unsupportedMethod := by decide
  refine ⟨hp, fun routes => ?_, by decide⟩
  simp [handleConnection, hp]

/-- C7: a request declaring `Content-Length: 5` whose body arrives in two
chunks (`he`, then `llo`): the single `reader.Read` into the 5-byte buffer
returns only the 2 delivered bytes, the error-free short read is not
retried, and the whole zero-initialized buffer becomes the body — the parser
returns the 5-byte body `he\x00\x00\x00`, not the 5 sent bytes `hello`,
with `llo` left unread on the connection. -/
theorem parseRequest_short_read :
    parseRequest ⟨[], [strBytes "POST /files/a HTTP/1.1\r\nContent-Length: 5\r\n\r\n",
                        strBytes "he", strBytes "llo"]⟩
      = .ok ⟨"POST", "/files/a", [("Content-Length", "5")], strBytes "he" ++ [0, 0, 0]⟩
          ⟨[], [strBytes "llo"]⟩
    ∧ strBytes "he" ++ [0, 0, 0] ≠ strBytes "hello" := by
  exact ⟨by decide, by decide⟩

/-- C8: on a connection whose request line is malformed (fewer than two
space-separated tokens after trimming), `handleConnection` writes no bytes
back before closing, whatever the route table. -/
theorem handleConnection_malformed_line_silent
    (routes : List (String × Handler)) (r r1 : ByteReader) (lineBytes : List Nat)
    (hline : readLine r = .ok (lineBytes, r1))
    (hmal : (goSplit (goTrimSpace (bytesToStr lineBytes)) " ").length < 2) :
    handleConnection routes r = [] := by
  have hple : parseRequestLine (bytesToStr lineBytes) = .error .malformedRequestLine := by
    unfold parseRequestLine
    rcases hs : goSplit (goTrimSpace (bytesToStr lineBytes)) " " with _ | ⟨a, _ | ⟨b, t⟩⟩
    · rfl
    · rfl
    · rw [hs] at hmal
      simp at hmal
      omega
  simp [handleConnection, parseRequest, hline, hple]

/-- C8 witness: the one-token request line `GET` causes the server to close
the (empty route table) connection without writing anything. -/
theorem handleConnection_malformed_line_silent_witness :
    readLine ⟨[], [strBytes "GET\r\n"]⟩ = .ok (strBytes "GET\r\n", ⟨[], []⟩)
    ∧ (goSplit (goTrimSpace (bytesToStr (strBytes "GET\r\n"))) " ").length < 2
    ∧ handleConnection [] ⟨[], [strBytes "GET\r\n"]⟩ = [] :=
  ⟨by decide, by decide,
   handleConnection_malformed_line_silent [] ⟨[], [strBytes "GET\r\n"]⟩ ⟨[], []⟩
     (strBytes "GET\r\n") (by decide) (by decide)⟩

end NetHttp
